import Mathlib

/-!
# Verification of the `h3ToGeo` stdin/stdout filter

Shallow embedding of `src/apps/filters/h3ToGeo.c`: a command-line filter
that converts H3 cell indexes (64-bit identifiers) to lat/lon cell center
points, in plain text or KML.  The geospatial library (`h3ToGeo`,
`radsToDegs`, `h3ToString`), the KML emitters (`kml.c`), the argument
parser (`parseArgs` in `utility.c`) and libc `fgets`/`printf` are external
collaborators; the library's pure math functions are kept abstract as a
structure of parameters, while the collaborators whose concrete behavior
the program relies on are modelled from the spec, as marked below.

Machine doubles are modelled as rationals; H3 indexes as natural numbers.
Standard input is modelled as a finite list of characters followed either
by end-of-stream or by a read error (a boolean flag).
-/

namespace H3ToGeo

/-- A cell-center coordinate pair as produced by the library, `GeoCoord`
from `h3api.h`.  The C `double` components are modelled as rationals. -/
structure GeoCoord where
  lat : ℚ
  lon : ℚ
deriving DecidableEq, Repr

/-- An H3 index: an opaque 64-bit unsigned identifier, modelled as `Nat`. -/
abbrev H3Index := Nat

/-- One item written to standard output by the pipeline: a KML document
header (carrying name and description), one KML placemark (label and the
point displayed in degrees), the KML document footer, or one plain-text
line. -/
inductive OutputItem where
  | kmlHeader (name desc : String)
  | placemark (label : String) (pt : GeoCoord)
  | kmlFooter
  | textLine (line : String)
deriving DecidableEq, Repr

/-- The external geospatial library's pure functions, kept abstract:
`h3ToGeo` (index → center coordinate, radians), `radsToDegs`
(radians → degrees), `h3ToString` (canonical index → text rendering). -/
structure H3Lib where
  h3ToGeo : H3Index → GeoCoord
  radsToDegs : ℚ → ℚ
  h3ToString : H3Index → String

/-- Value of a hexadecimal digit character, `none` for any other
character. -/
def hexVal (c : Char) : Option Nat :=
  if c.isDigit then some (c.toNat - 48)
  else if 97 ≤ c.toNat ∧ c.toNat ≤ 102 then some (c.toNat - 87)
  else if 65 ≤ c.toNat ∧ c.toNat ≤ 70 then some (c.toNat - 55)
  else none

/-- Accumulate leading hexadecimal digits, stopping at the first
non-hex-digit character. -/
def hexAcc : List Char → Nat → Nat
  | [], acc => acc
  | c :: rest, acc =>
    match hexVal c with
    | some d => hexAcc rest (16 * acc + d)
    | none => acc

/-- Modelled from the spec: the library's text→index parser `stringToH3`
(absent from `src/`), which reads the hexadecimal integer at the start of
the string and ignores everything from the first non-hex-digit character
on (such as the trailing newline kept by `fgets`). -/
def stringToH3 (s : String) : H3Index :=
  hexAcc s.data 0

/-- Modelled from the spec: the value the argument parser (absent from
`src/`) stores for the `-i` or `--index` flag, scanned with the hexadecimal
format `%PRIx64` declared by `indexArg`. -/
def scanHexIndex (s : String) : H3Index :=
  hexAcc s.data 0

/-- Modelled from the spec: the string the argument parser (absent from
`src/`) stores for a `%255c`-scanned flag value: at most 255 characters,
so the 256-byte destination buffer cannot overflow. -/
def scanStr255 (s : String) : String :=
  String.mk (s.data.take 255)

/-- The decimal digit character for `d < 10`. -/
def digitChar (d : Nat) : Char :=
  Char.ofNat (48 + d)

/-- Decimal rendering of a natural number as digit characters. -/
def natChars (n : Nat) : List Char :=
  if _h : n < 10 then [digitChar n]
  else natChars (n / 10) ++ [digitChar (n % 10)]
termination_by n
decreasing_by exact Nat.div_lt_self (by omega) (by omega)

/-- Left-pad a digit list with zeros to 10 characters. -/
def pad10 (cs : List Char) : List Char :=
  List.replicate (10 - cs.length) '0' ++ cs

/-- Model of C `printf` with format `%.10lf` applied to a double (here a
rational): optional minus sign, the integer part, a decimal point, and
exactly 10 fractional digits, rounding the scaled magnitude to nearest
(half away from zero). -/
def printfFixed10 (q : ℚ) : String :=
  let scaled : Nat := (⌊|q| * 10000000000 + (1 / 2 : ℚ)⌋).toNat
  (if q < 0 then "-" else "") ++ String.mk (natChars (scaled / 10000000000))
    ++ "." ++ String.mk (pad10 (natChars (scaled % 10000000000)))

/-- A string of the shape `-?\d+\.\d{10}`: optional minus sign, then a
nonempty run of decimal digits, a point, and exactly ten decimal
digits. -/
def fixed10 (s : String) : Prop :=
  ∃ (neg : Bool) (ip fr : List Char),
    s.data = (if neg then ['-'] else []) ++ ip ++ '.' :: fr ∧
    ip ≠ [] ∧ (∀ c ∈ ip, c.isDigit = true) ∧
    fr.length = 10 ∧ (∀ c ∈ fr, c.isDigit = true)

/-- Modelled from the spec: `kmlPtsHeader` (`kml.c`, absent from `src/`)
emits the document header carrying the name and description, exactly
once. -/
def kmlPtsHeader (name desc : String) : OutputItem :=
  OutputItem.kmlHeader name desc

/-- Modelled from the spec: `kmlPtsFooter` (`kml.c`, absent from `src/`)
emits the document footer, exactly once. -/
def kmlPtsFooter : OutputItem :=
  OutputItem.kmlFooter

/-- Modelled from the spec: `outputPointKML` (`kml.c`, absent from
`src/`) emits one placemark whose label is the canonical index string and
whose point geometry is the coordinate converted from radians to degrees
for display. -/
def outputPointKML (lib : H3Lib) (g : GeoCoord) (label : String) : OutputItem :=
  OutputItem.placemark label ⟨lib.radsToDegs g.lat, lib.radsToDegs g.lon⟩

/-- `doCell` from `h3ToGeo.c`: convert one index to its cell center point
and emit it, as a KML placemark when `isKmlOut`, otherwise as one
plain-text line `"<lat> <lon>\n"` printed with `%.10lf` after converting
both components to degrees. -/
def doCell (lib : H3Lib) (h : H3Index) (isKmlOut : Bool) : OutputItem :=
  let g := lib.h3ToGeo h
  if isKmlOut then
    outputPointKML lib g (lib.h3ToString h)
  else
    OutputItem.textLine (printfFixed10 (lib.radsToDegs g.lat) ++ " "
      ++ printfFixed10 (lib.radsToDegs g.lon) ++ "\n")

/-- `BUFF_SIZE` (`utility.h`, absent from `src/`): the fixed buffer
capacity; 256, as pinned by the `%255c  // BUFF_SIZE - 1` scan formats in
`h3ToGeo.c`. -/
def BUFF_SIZE : Nat := 256

/-- The characters one C `fgets(buff, n+1, stdin)` call stores: at most
`n` characters from the stream, stopping right after a newline. -/
def fgetsTake : Nat → List Char → List Char
  | 0, _ => []
  | _ + 1, [] => []
  | n + 1, c :: rest => if c = '\n' then [c] else c :: fgetsTake n rest

/-- Model of C `fgets(buff, BUFF_SIZE, stdin)` on the remaining input
characters: `none` when no character is available (end-of-stream or read
error), otherwise the chunk read (at most `BUFF_SIZE - 1` characters,
stopping after a newline) and the remaining stream. -/
def fgets (s : List Char) : Option (List Char × List Char) :=
  match s with
  | [] => none
  | c :: cs =>
    let buff := fgetsTake (BUFF_SIZE - 1) (c :: cs)
    some (buff, (c :: cs).drop buff.length)

/-- The parsed-arguments state after `parseArgs` returns: for each flag of
`h3ToGeo.c`, whether it was found, and the values stored for the
value-carrying flags. -/
structure Args where
  indexFound : Bool
  index : H3Index
  kmlFound : Bool
  kmlNameFound : Bool
  userKmlName : String
  kmlDescFound : Bool
  userKmlDesc : String
deriving DecidableEq, Repr

/-- Modelled from the spec: the three-way outcome of `parseArgs`
(`utility.c`, absent from `src/`): help requested, a parse error, or
success (fall through into the pipeline). -/
inductive ParseOutcome where
  | help
  | err
  | success
deriving DecidableEq, Repr

/-- The observable result of one process run: the items written to
standard output, the diagnostic written by `error()` on the fatal path
(`none` otherwise), the process exit status, and how many `fgets` reads
of standard input were performed. -/
structure RunResult where
  out : List OutputItem
  diag : Option String
  exitCode : Nat
  reads : Nat
deriving DecidableEq, Repr

/-- The `while (1)` stream loop of `main`: each iteration calls `fgets`;
on `NULL` it breaks at end-of-stream or, when the failure is a read
error (`errAtEnd`), dies in `error()`; otherwise it decodes the chunk
with `stringToH3` and emits it with `doCell`.  Returns the emitted items
in order, the number of `fgets` calls, and whether the loop ended
fatally. -/
def mainLoop (lib : H3Lib) (isKml errAtEnd : Bool) (s : List Char) :
    List OutputItem × Nat × Bool :=
  match hfg : fgets s with
  | none => ([], 1, errAtEnd)
  | some (buff, rest) =>
    let item := doCell lib (stringToH3 (String.mk buff)) isKml
    let r := mainLoop lib isKml errAtEnd rest
    (item :: r.1, r.2.1 + 1, r.2.2)
termination_by s.length
decreasing_by
  cases s with
  | nil => simp [fgets] at hfg
  | cons c cs =>
    simp only [fgets, Option.some.injEq, Prod.mk.injEq] at hfg
    have hlen : 0 < (fgetsTake (BUFF_SIZE - 1) (c :: cs)).length := by
      show 0 < (fgetsTake (254 + 1) (c :: cs)).length
      rw [fgetsTake]
      split <;> simp
    rw [← hfg.2]
    simp only [List.length_drop, List.length_cons]
    omega

/-- The successive chunks `fgets` yields from an input stream. -/
def fgetsChunks (s : List Char) : List (List Char) :=
  match hfg : fgets s with
  | none => []
  | some (buff, rest) => buff :: fgetsChunks rest
termination_by s.length
decreasing_by
  cases s with
  | nil => simp [fgets] at hfg
  | cons c cs =>
    simp only [fgets, Option.some.injEq, Prod.mk.injEq] at hfg
    have hlen : 0 < (fgetsTake (BUFF_SIZE - 1) (c :: cs)).length := by
      show 0 < (fgetsTake (254 + 1) (c :: cs)).length
      rw [fgetsTake]
      split <;> simp
    rw [← hfg.2]
    simp only [List.length_drop, List.length_cons]
    omega

/-- `main` from `h3ToGeo.c`, after `parseArgs` has run: on help return 0,
on parse error return 1; otherwise emit the KML header (with defaults
`"geo from H3"` / `"from h3ToGeo"` unless overridden) when `--kml` was
found, then either process the single `-i` index (skipping stdin
entirely) or run the stream loop, and finally emit the KML footer on the
non-fatal paths.  `input` and `errAtEnd` model standard input. -/
def main (lib : H3Lib) (po : ParseOutcome) (args : Args)
    (input : List Char) (errAtEnd : Bool) : RunResult :=
  match po with
  | ParseOutcome.help => { out := [], diag := none, exitCode := 0, reads := 0 }
  | ParseOutcome.err => { out := [], diag := none, exitCode := 1, reads := 0 }
  | ParseOutcome.success =>
    let headerOut : List OutputItem :=
      if args.kmlFound then
        let kmlName := if args.kmlNameFound then args.userKmlName else "geo from H3"
        let kmlDesc := if args.kmlDescFound then args.userKmlDesc else "from h3ToGeo"
        [kmlPtsHeader kmlName kmlDesc]
      else []
    if args.indexFound then
      { out := headerOut ++ [doCell lib args.index args.kmlFound]
          ++ (if args.kmlFound then [kmlPtsFooter] else []),
        diag := none, exitCode := 0, reads := 0 }
    else
      let r := mainLoop lib args.kmlFound errAtEnd input
      if r.2.2 then
        { out := headerOut ++ r.1,
          diag := some ("reading H3 index from stdin"), exitCode := 1,
          reads := r.2.1 }
      else
        { out := headerOut ++ r.1 ++ (if args.kmlFound then [kmlPtsFooter] else []),
          diag := none, exitCode := 0, reads := r.2.1 }

/-- Input lines that each fit in one `fgets` read: at most
`BUFF_SIZE - 2` characters of content and no embedded newline. -/
def linesWF (ls : List (List Char)) : Prop :=
  ∀ l ∈ ls, l.length ≤ BUFF_SIZE - 2 ∧ '\n' ∉ l

/-- The character stream carrying the given lines, each terminated by a
newline. -/
def joinLines (ls : List (List Char)) : List Char :=
  ls.foldr (fun l acc => l ++ '\n' :: acc) []

/-- Whether an output item is a KML placemark. -/
def isPlacemark : OutputItem → Bool
  | OutputItem.placemark _ _ => true
  | _ => false

/-- A concrete instantiation of the abstract library functions, used to
evaluate the pipeline on concrete inputs. -/
def testLib : H3Lib where
  h3ToGeo := fun h => ⟨(h : ℚ) / 2, (h : ℚ) / 3⟩
  radsToDegs := fun r => r * 180 / 7
  h3ToString := fun h => String.mk (natChars h)

/-- A concrete parsed-arguments state: plain-text streaming mode. -/
def testArgs : Args where
  indexFound := false
  index := 0
  kmlFound := false
  kmlNameFound := false
  userKmlName := ""
  kmlDescFound := false
  userKmlDesc := ""

/-- A concrete parsed-arguments state: KML streaming mode. -/
def testArgsKml : Args := { testArgs with kmlFound := true }

/-- A concrete parsed-arguments state: KML streaming mode with the name
and description overridden by scanned user strings. -/
def testArgsKmlNamed : Args :=
  { testArgsKml with
    kmlNameFound := true
    userKmlName := scanStr255 ("Nm")
    kmlDescFound := true
    userKmlDesc := scanStr255 ("Ds") }

/-- A concrete parsed-arguments state: plain-text streaming mode carrying
an unused KML name override. -/
def testArgsAltName : Args :=
  { testArgs with
    kmlNameFound := true
    userKmlName := "whatever" }


/-- The newline character is not a hexadecimal digit. -/
theorem hexVal_newline : hexVal '\n' = none := by decide

/-- A trailing newline never changes the accumulated hexadecimal value:
parsing stops at the first non-hex-digit character anyway. -/
theorem hexAcc_append_newline (l : List Char) :
    ∀ a : Nat, hexAcc (l ++ ['\n']) a = hexAcc l a := by
  induction l with
  | nil => intro a; rfl
  | cons c rest ih =>
    intro a
    simp only [List.cons_append, hexAcc]
    cases hexVal c with
    | none => rfl
    | some d => exact ih _

/-- A newline-terminated line short enough for the buffer is read whole,
newline included. -/
theorem fgetsTake_line (l : List Char) :
    ∀ (n : Nat) (r : List Char), '\n' ∉ l → l.length < n →
      fgetsTake n (l ++ '\n' :: r) = l ++ ['\n'] := by
  induction l with
  | nil =>
    intro n r _ hn
    match n, hn with
    | n + 1, _ => simp [fgetsTake]
  | cons c rest ih =>
    intro n r hnl hn
    match n, hn with
    | n + 1, hn =>
      have hc : c ≠ '\n' := by
        intro h; exact hnl (by simp [h])
      simp only [List.cons_append, fgetsTake, if_neg hc, List.append_eq]
      rw [ih n r (fun h => hnl (List.mem_cons_of_mem _ h)) (by simpa using hn)]

/-- `fgets` on a nonempty stream reads a chunk and leaves the rest. -/
theorem fgets_ne_nil (s : List Char) (hs : s ≠ []) :
    fgets s = some (fgetsTake (BUFF_SIZE - 1) s,
      s.drop (fgetsTake (BUFF_SIZE - 1) s).length) := by
  cases s with
  | nil => exact absurd rfl hs
  | cons c cs => rfl

/-- `fgets` consumes exactly one short newline-terminated line. -/
theorem fgets_line (l r : List Char) (hnl : '\n' ∉ l) (hlen : l.length ≤ BUFF_SIZE - 2) :
    fgets (l ++ '\n' :: r) = some (l ++ ['\n'], r) := by
  have hne : l ++ '\n' :: r ≠ [] := by simp
  rw [fgets_ne_nil _ hne]
  have ht : fgetsTake (BUFF_SIZE - 1) (l ++ '\n' :: r) = l ++ ['\n'] := by
    apply fgetsTake_line l (BUFF_SIZE - 1) r hnl
    simp only [BUFF_SIZE] at hlen ⊢
    omega
  rw [ht]
  have : (l ++ '\n' :: r).drop (l ++ ['\n']).length = r := by
    have h2 : l ++ '\n' :: r = (l ++ ['\n']) ++ r := by simp
    rw [h2, List.drop_left]
  rw [this]

/-- `fgets` fails on an exhausted stream. -/
theorem fgets_nil : fgets [] = none := rfl

/-- On an exhausted stream the loop performs one failing read and ends,
fatally exactly when the failure is a read error. -/
theorem mainLoop_nil (lib : H3Lib) (k e : Bool) : mainLoop lib k e [] = ([], 1, e) := by
  rw [mainLoop]
  rfl

/-- One loop iteration: read a chunk, decode it, emit it, continue. -/
theorem mainLoop_some (lib : H3Lib) (k e : Bool) (s b r : List Char)
    (h : fgets s = some (b, r)) :
    mainLoop lib k e s =
      (doCell lib (stringToH3 (String.mk b)) k :: (mainLoop lib k e r).1,
       (mainLoop lib k e r).2.1 + 1, (mainLoop lib k e r).2.2) := by
  rw [mainLoop]
  split
  · simp_all
  · rename_i b2 r2 h2
    rw [h] at h2
    cases h2
    rfl

/-- No chunks come from an exhausted stream. -/
theorem fgetsChunks_nil : fgetsChunks [] = [] := by
  rw [fgetsChunks]
  rfl

/-- Chunking peels off whatever `fgets` reads first. -/
theorem fgetsChunks_some (s b r : List Char) (h : fgets s = some (b, r)) :
    fgetsChunks s = b :: fgetsChunks r := by
  rw [fgetsChunks]
  split
  · simp_all
  · rename_i b2 r2 h2
    rw [h] at h2
    cases h2
    rfl

/-- The stream loop emits exactly one item per `fgets` chunk, in stream
order, performs one read per chunk plus the final failing read, and ends
fatally exactly when the stream ends in a read error. -/
theorem mainLoop_spec (lib : H3Lib) (k e : Bool) (s : List Char) :
    mainLoop lib k e s =
      ((fgetsChunks s).map (fun b => doCell lib (stringToH3 (String.mk b)) k),
        (fgetsChunks s).length + 1, e) := by
  have key : ∀ (n : Nat) (s : List Char), s.length ≤ n →
      mainLoop lib k e s =
        ((fgetsChunks s).map (fun b => doCell lib (stringToH3 (String.mk b)) k),
          (fgetsChunks s).length + 1, e) := by
    intro n
    induction n with
    | zero =>
      intro s hs
      have : s = [] := List.eq_nil_of_length_eq_zero (by omega)
      subst this
      rw [mainLoop_nil, fgetsChunks_nil]
      rfl
    | succ n ih =>
      intro s hs
      cases hfg : fgets s with
      | none =>
        cases s with
        | nil =>
          rw [mainLoop_nil, fgetsChunks_nil]
          rfl
        | cons c cs => simp [fgets] at hfg
      | some p =>
        obtain ⟨b, r⟩ := p
        have hlt : r.length < s.length := by
          cases s with
          | nil => simp [fgets] at hfg
          | cons c cs =>
            simp only [fgets, Option.some.injEq, Prod.mk.injEq] at hfg
            have hlen : 0 < (fgetsTake (BUFF_SIZE - 1) (c :: cs)).length := by
              show 0 < (fgetsTake (254 + 1) (c :: cs)).length
              rw [fgetsTake]
              split <;> simp
            rw [← hfg.2]
            simp only [List.length_drop, List.length_cons]
            omega
        rw [mainLoop_some lib k e s b r hfg, fgetsChunks_some s b r hfg,
          ih r (by omega)]
        simp
  exact key s.length s le_rfl

/-- Well-formed input lines are read back one line per chunk. -/
theorem fgetsChunks_joinLines (ls : List (List Char)) (h : linesWF ls) :
    fgetsChunks (joinLines ls) = ls.map (fun l => l ++ ['\n']) := by
  induction ls with
  | nil => simpa [joinLines] using fgetsChunks_nil
  | cons l rest ih =>
    have hl := h l (by simp)
    have hrest : linesWF rest := fun x hx => h x (List.mem_cons_of_mem _ hx)
    have hjoin : joinLines (l :: rest) = l ++ '\n' :: joinLines rest := by
      simp [joinLines]
    rw [hjoin, fgetsChunks_some _ (l ++ ['\n']) (joinLines rest)
        (fgets_line l (joinLines rest) hl.2 hl.1), ih hrest]
    simp

/-- `doCell` emits placemarks or text lines, never the KML footer. -/
theorem doCell_ne_kmlFooter (lib : H3Lib) (h : H3Index) (k : Bool) :
    doCell lib h k ≠ OutputItem.kmlFooter := by
  cases k <;> simp [doCell, outputPointKML]

/-- In KML mode `doCell` emits a placemark. -/
theorem doCell_true_isPlacemark (lib : H3Lib) (h : H3Index) :
    isPlacemark (doCell lib h true) = true := by
  simp [doCell, outputPointKML, isPlacemark]

/-- Decimal rendering is never empty. -/
theorem natChars_ne_nil (n : Nat) : natChars n ≠ [] := by
  rw [natChars]
  split <;> simp

/-- The rendered character of a digit value is a decimal digit. -/
theorem digitChar_isDigit (d : Nat) (h : d < 10) : (digitChar d).isDigit = true := by
  interval_cases d <;> decide

/-- Decimal rendering produces only decimal digits. -/
theorem natChars_digits (n : Nat) : ∀ c ∈ natChars n, c.isDigit = true := by
  induction n using Nat.strong_induction_on with
  | _ n ih =>
    intro c hc
    rw [natChars] at hc
    split at hc
    · rename_i h
      simp only [List.mem_singleton] at hc
      subst hc
      exact digitChar_isDigit n h
    · rename_i h
      simp only [List.mem_append, List.mem_singleton] at hc
      rcases hc with hc | hc
      · exact ih (n / 10) (Nat.div_lt_self (by omega) (by omega)) c hc
      · subst hc
        exact digitChar_isDigit _ (Nat.mod_lt _ (by omega))

/-- A number below `10 ^ (k + 1)` renders in at most `k + 1` digits. -/
theorem natChars_length_le (k : Nat) : ∀ n : Nat, n < 10 ^ (k + 1) →
    (natChars n).length ≤ k + 1 := by
  induction k with
  | zero =>
    intro n hn
    rw [natChars]
    split
    · simp
    · omega
  | succ k ih =>
    intro n hn
    rw [natChars]
    split
    · simp
    · rename_i h
      have hdiv : n / 10 < 10 ^ (k + 1) := by
        rw [Nat.div_lt_iff_lt_mul (by omega)]
        calc n < 10 ^ (k + 1 + 1) := hn
        _ = 10 ^ (k + 1) * 10 := by ring
      simpa using Nat.add_le_add_right (ih (n / 10) hdiv) 1

/-- Zero-padding a digit run of at most 10 characters yields exactly 10
digits. -/
theorem pad10_spec (cs : List Char) (hlen : cs.length ≤ 10)
    (hd : ∀ c ∈ cs, c.isDigit = true) :
    (pad10 cs).length = 10 ∧ ∀ c ∈ pad10 cs, c.isDigit = true := by
  constructor
  · simp [pad10]
    omega
  · intro c hc
    simp only [pad10, List.mem_append, List.mem_replicate] at hc
    rcases hc with hc | hc
    · rw [hc.2]; decide
    · exact hd c hc

/-- Every `%.10lf` rendering matches the fixed-point shape with exactly
10 fractional digits. -/
theorem printfFixed10_fixed10 (q : ℚ) : fixed10 (printfFixed10 q) := by
  refine ⟨decide (q < 0),
    natChars ((⌊|q| * 10000000000 + (1 / 2 : ℚ)⌋).toNat / 10000000000),
    pad10 (natChars ((⌊|q| * 10000000000 + (1 / 2 : ℚ)⌋).toNat % 10000000000)),
    ?_, natChars_ne_nil _, natChars_digits _, ?_, ?_⟩
  · simp only [printfFixed10, String.data_append, String.mk]
    by_cases hq : q < 0 <;> simp [hq]
  · exact (pad10_spec _ (natChars_length_le 9 _ (Nat.mod_lt _ (by norm_num)))
      (natChars_digits _)).1
  · exact (pad10_spec _ (natChars_length_le 9 _ (Nat.mod_lt _ (by norm_num)))
      (natChars_digits _)).2

/-- Without a newline among the first `n` characters, a read takes
exactly `n` characters. -/
theorem fgetsTake_no_newline : ∀ (n : Nat) (s : List Char),
    n ≤ s.length → (∀ c ∈ s.take n, c ≠ '\n') → fgetsTake n s = s.take n := by
  intro n
  induction n with
  | zero => intro s _ _; cases s <;> rfl
  | succ n ih =>
    intro s hlen hnl
    cases s with
    | nil => simp at hlen
    | cons c cs =>
      have hc : c ≠ '\n' := hnl c (by simp)
      simp only [fgetsTake, if_neg hc, List.take_succ_cons, List.cons.injEq,
        true_and]
      exact ih cs (by simpa using hlen)
        (fun x hx => hnl x (by simp [List.take_succ_cons, hx]))

/-- A nonempty stream yields at least one chunk. -/
theorem fgetsChunks_length_pos (s : List Char) (hs : s ≠ []) :
    0 < (fgetsChunks s).length := by
  rw [fgetsChunks_some s _ _ (fgets_ne_nil s hs)]
  simp

/-- A physical line longer than the buffer capacity is split across more
than one read. -/
theorem fgetsChunks_overlong (l : List Char) (hnl : '\n' ∉ l)
    (hlong : BUFF_SIZE - 1 < l.length) :
    1 < (fgetsChunks (l ++ ['\n'])).length := by
  set s := l ++ ['\n'] with hsdef
  have hslen : s.length = l.length + 1 := by simp [hsdef]
  have htake : s.take (BUFF_SIZE - 1) = l.take (BUFF_SIZE - 1) := by
    rw [hsdef, List.take_append_of_le_length (by omega)]
  have hnn : ∀ c ∈ s.take (BUFF_SIZE - 1), c ≠ '\n' := by
    intro c hc
    rw [htake] at hc
    intro h
    subst h
    exact hnl (List.mem_of_mem_take hc)
  have hft : fgetsTake (BUFF_SIZE - 1) s = s.take (BUFF_SIZE - 1) :=
    fgetsTake_no_newline (BUFF_SIZE - 1) s (by omega) hnn
  have hfg : fgets s = some (s.take (BUFF_SIZE - 1),
      s.drop (s.take (BUFF_SIZE - 1)).length) := by
    rw [fgets_ne_nil s (by simp [hsdef]), hft]
  have hdrop : s.drop (s.take (BUFF_SIZE - 1)).length ≠ [] := by
    have h1 : (s.take (BUFF_SIZE - 1)).length = BUFF_SIZE - 1 := by
      rw [List.length_take]
      omega
    rw [h1]
    intro hempty
    have := congrArg List.length hempty
    rw [List.length_drop] at this
    simp only [List.length_nil] at this
    simp only [BUFF_SIZE] at this hlong
    omega
  rw [fgetsChunks_some s _ _ hfg]
  have := fgetsChunks_length_pos _ hdrop
  simp only [List.length_cons]
  omega

/-- Claim C8: for every processed cell, in both output modes the
displayed coordinate is exactly the library coordinate with each
component passed through the radians-to-degrees conversion, and nothing
else is done to it: this holds for an arbitrary library, so the displayed
pair is pinned to `radsToDegs` of `h3ToGeo`'s output. -/
theorem degrees_only_display (lib : H3Lib) (h : H3Index) :
    doCell lib h false = OutputItem.textLine
        (printfFixed10 (lib.radsToDegs (lib.h3ToGeo h).lat) ++ " " ++
         printfFixed10 (lib.radsToDegs (lib.h3ToGeo h).lon) ++ "\n") ∧
    doCell lib h true = OutputItem.placemark (lib.h3ToString h)
        ⟨lib.radsToDegs (lib.h3ToGeo h).lat, lib.radsToDegs (lib.h3ToGeo h).lon⟩ := by
  exact ⟨rfl, rfl⟩

/-- Claim C9: when the `--kml` flag is absent, the presence and values of
the `--kml-name` and `--kml-description` flags have no effect: two runs
whose parsed arguments differ only in those fields produce identical
results on the same input. -/
theorem kml_flags_noninterference (lib : H3Lib) (po : ParseOutcome) (a b : Args)
    (input : List Char) (err : Bool)
    (ha : a.kmlFound = false) (hb : b.kmlFound = false)
    (hidx : a.indexFound = b.indexFound) (hval : a.index = b.index) :
    main lib po a input err = main lib po b input err := by
  cases po with
  | help => rfl
  | err => rfl
  | success =>
    simp only [main, ha, hb, Bool.false_eq_true, if_false]
    rw [← hidx, ← hval]

/-- Claim C5: help exits with status 0 and runs no pipeline (no output,
no reads); a parse error exits nonzero with no pipeline; and a pipeline
that runs to completion (no read error) exits with the default success
status whatever the input contained, malformed lines included. -/
theorem exit_status (lib : H3Lib) (args : Args) (input : List Char) (err : Bool)
    (he : err = false) :
    (main lib ParseOutcome.help args input err).exitCode = 0 ∧
    (main lib ParseOutcome.help args input err).out = [] ∧
    (main lib ParseOutcome.help args input err).reads = 0 ∧
    (main lib ParseOutcome.err args input err).exitCode = 1 ∧
    (main lib ParseOutcome.err args input err).out = [] ∧
    (main lib ParseOutcome.err args input err).reads = 0 ∧
    (main lib ParseOutcome.success args input err).exitCode = 0 := by
  subst he
  refine ⟨rfl, rfl, rfl, rfl, rfl, rfl, ?_⟩
  simp only [main]
  by_cases hidx : args.indexFound = true
  · simp [hidx]
  · simp only [Bool.not_eq_true] at hidx
    simp [hidx, mainLoop_spec]

/-- Claim C3: in plain-text mode the output is exactly one text line per
processed input item, and each such line is
`<lat> <lon>\n` with latitude first, both values being the
converted-to-degrees coordinates rendered as fixed-point decimals with
exactly 10 digits after the decimal point. -/
theorem plaintext_line_format (lib : H3Lib) (args : Args) (input : List Char)
    (err : Bool) (hi : args.indexFound = false) (hk : args.kmlFound = false) :
    (main lib ParseOutcome.success args input err).out =
      (fgetsChunks input).map
        (fun b => doCell lib (stringToH3 (String.mk b)) false) ∧
    ∀ h : H3Index, ∃ la lo,
      doCell lib h false = OutputItem.textLine (la ++ " " ++ lo ++ "\n") ∧
      la = printfFixed10 (lib.radsToDegs (lib.h3ToGeo h).lat) ∧
      lo = printfFixed10 (lib.radsToDegs (lib.h3ToGeo h).lon) ∧
      fixed10 la ∧ fixed10 lo := by
  constructor
  · simp only [main, hi, hk, Bool.false_eq_true, if_false, mainLoop_spec]
    cases err <;> simp
  · intro h
    exact ⟨printfFixed10 (lib.radsToDegs (lib.h3ToGeo h).lat),
      printfFixed10 (lib.radsToDegs (lib.h3ToGeo h).lon),
      rfl, rfl, rfl, printfFixed10_fixed10 _, printfFixed10_fixed10 _⟩

/-- Claim C7: output items appear in exactly the order of the input
chunks they come from, one item per chunk with no reordering; in KML
mode the placemarks appear in that same order bracketed by the header
and footer. -/
theorem output_order_preserved (lib : H3Lib) (args : Args) (input : List Char)
    (err : Bool) (hi : args.indexFound = false) (he : err = false) :
    (main lib ParseOutcome.success args input err).out =
      (if args.kmlFound then
          [OutputItem.kmlHeader
            (if args.kmlNameFound then args.userKmlName else "geo from H3")
            (if args.kmlDescFound then args.userKmlDesc else "from h3ToGeo")]
        else []) ++
      (fgetsChunks input).map
        (fun b => doCell lib (stringToH3 (String.mk b)) args.kmlFound) ++
      (if args.kmlFound then [OutputItem.kmlFooter] else []) := by
  subst he
  simp only [main, hi, Bool.false_eq_true, if_false, mainLoop_spec]
  by_cases hk : args.kmlFound = true
  · simp [hk, kmlPtsHeader, kmlPtsFooter]
  · simp only [Bool.not_eq_true] at hk
    simp [hk]

/-- Claim C4: the streaming loop ends normally exactly when the stream
ends at end-of-stream; a read failure that is not end-of-stream aborts
the run with the diagnostic and a nonzero status, and on that path no
KML footer is emitted even though the KML header was already printed. -/
theorem stream_error_no_footer (lib : H3Lib) (args : Args) (input : List Char)
    (err : Bool) (hi : args.indexFound = false) :
    (((main lib ParseOutcome.success args input err).diag
        = some ("reading H3 index from stdin") ∧
      (main lib ParseOutcome.success args input err).exitCode = 1) ↔ err = true) ∧
    (err = true →
      OutputItem.kmlFooter ∉ (main lib ParseOutcome.success args input err).out) ∧
    (err = true → args.kmlFound = true → ∃ n d rest,
      (main lib ParseOutcome.success args input err).out
        = OutputItem.kmlHeader n d :: rest) ∧
    (err = false → (main lib ParseOutcome.success args input err).diag = none ∧
      (main lib ParseOutcome.success args input err).exitCode = 0) := by
  refine ⟨?_, ?_, ?_, ?_⟩
  · cases err with
    | false =>
      simp only [main, hi, Bool.false_eq_true, if_false, mainLoop_spec]
      simp
    | true =>
      simp only [main, hi, Bool.false_eq_true, if_false, mainLoop_spec]
      simp
  · intro he
    subst he
    simp only [main, hi, Bool.false_eq_true, if_false, mainLoop_spec, if_true]
    intro hmem
    simp only [List.mem_append, List.mem_map] at hmem
    rcases hmem with hmem | hmem
    · by_cases hk : args.kmlFound = true
      · simp [hk, kmlPtsHeader] at hmem
      · simp only [Bool.not_eq_true] at hk
        simp [hk] at hmem
    · obtain ⟨b, _, hb⟩ := hmem
      exact doCell_ne_kmlFooter lib _ _ hb
  · intro he hk
    subst he
    simp only [main, hi, hk, Bool.false_eq_true, if_false, mainLoop_spec, if_true,
      kmlPtsHeader]
    exact ⟨_, _, _, rfl⟩
  · intro he
    subst he
    simp only [main, hi, Bool.false_eq_true, if_false, mainLoop_spec]
    simp

/-- Claim C2: in KML mode the header is emitted exactly once before any
placemark and the footer exactly once after all placemarks on every
normal exit path, and the number of placemarks equals the number of
processed items: 1 in single-value mode, `N` for `N` well-formed stream
lines, 0 for empty stdin. -/
theorem kml_bracketing (lib : H3Lib) (args : Args) (hk : args.kmlFound = true) :
    (∀ (input : List Char) (err : Bool), args.indexFound = true →
      ∃ n d pm, (main lib ParseOutcome.success args input err).out
          = [OutputItem.kmlHeader n d, pm, OutputItem.kmlFooter] ∧
        isPlacemark pm = true) ∧
    (∀ ls : List (List Char), args.indexFound = false → linesWF ls →
      ∃ n d mids, (main lib ParseOutcome.success args (joinLines ls) false).out
          = OutputItem.kmlHeader n d :: (mids ++ [OutputItem.kmlFooter]) ∧
        (∀ x ∈ mids, isPlacemark x = true) ∧ mids.length = ls.length) ∧
    (args.indexFound = false →
      ∃ n d, (main lib ParseOutcome.success args [] false).out
        = [OutputItem.kmlHeader n d, OutputItem.kmlFooter]) := by
  refine ⟨?_, ?_, ?_⟩
  · intro input err hidx
    have hout : (main lib ParseOutcome.success args input err).out
        = [OutputItem.kmlHeader
            (if args.kmlNameFound then args.userKmlName else "geo from H3")
            (if args.kmlDescFound then args.userKmlDesc else "from h3ToGeo"),
          doCell lib args.index true, OutputItem.kmlFooter] := by
      simp [main, hidx, hk, kmlPtsHeader, kmlPtsFooter]
    exact ⟨_, _, _, hout, doCell_true_isPlacemark lib _⟩
  · intro ls hidx hwf
    have hout : (main lib ParseOutcome.success args (joinLines ls) false).out
        = OutputItem.kmlHeader
            (if args.kmlNameFound then args.userKmlName else "geo from H3")
            (if args.kmlDescFound then args.userKmlDesc else "from h3ToGeo")
          :: ((fgetsChunks (joinLines ls)).map
                (fun b => doCell lib (stringToH3 (String.mk b)) true)
              ++ [OutputItem.kmlFooter]) := by
      simp only [main, hidx, hk, Bool.false_eq_true, if_false, if_true,
        mainLoop_spec, kmlPtsHeader, kmlPtsFooter]
      simp
    refine ⟨_, _, _, hout, ?_, ?_⟩
    · intro x hx
      simp only [List.mem_map] at hx
      obtain ⟨b, _, hb⟩ := hx
      rw [← hb]
      exact doCell_true_isPlacemark lib _
    · rw [fgetsChunks_joinLines ls hwf]
      simp
  · intro hidx
    have hout : (main lib ParseOutcome.success args [] false).out
        = [OutputItem.kmlHeader
            (if args.kmlNameFound then args.userKmlName else "geo from H3")
            (if args.kmlDescFound then args.userKmlDesc else "from h3ToGeo"),
          OutputItem.kmlFooter] := by
      simp only [main, hidx, hk, Bool.false_eq_true, if_false, if_true,
        mainLoop_spec, fgetsChunks_nil, kmlPtsHeader, kmlPtsFooter]
      simp
    exact ⟨_, _, hout⟩

/-- Claim C6: the KML header carries the literal defaults
`"geo from H3"` and `"from h3ToGeo"` when the override flags are absent,
and the user-supplied strings, capped at 255 characters by the scan
format, when present. -/
theorem kml_header_metadata (lib : H3Lib) (args : Args) (input : List Char)
    (err : Bool) (rawName rawDesc : String) (hk : args.kmlFound = true)
    (hn : args.userKmlName = scanStr255 rawName)
    (hd : args.userKmlDesc = scanStr255 rawDesc) :
    (∃ rest, (main lib ParseOutcome.success args input err).out =
        OutputItem.kmlHeader
          (if args.kmlNameFound then scanStr255 rawName else "geo from H3")
          (if args.kmlDescFound then scanStr255 rawDesc else "from h3ToGeo")
        :: rest) ∧
    (scanStr255 rawName).length ≤ 255 ∧ (scanStr255 rawDesc).length ≤ 255 := by
  refine ⟨?_, ?_, ?_⟩
  · rw [← hn, ← hd]
    by_cases hidx : args.indexFound = true
    · have hout : (main lib ParseOutcome.success args input err).out
          = OutputItem.kmlHeader
              (if args.kmlNameFound then args.userKmlName else "geo from H3")
              (if args.kmlDescFound then args.userKmlDesc else "from h3ToGeo")
            :: [doCell lib args.index true, OutputItem.kmlFooter] := by
        simp [main, hidx, hk, kmlPtsHeader, kmlPtsFooter]
      exact ⟨_, hout⟩
    · simp only [Bool.not_eq_true] at hidx
      cases err with
      | false =>
        have hout : (main lib ParseOutcome.success args input false).out
            = OutputItem.kmlHeader
                (if args.kmlNameFound then args.userKmlName else "geo from H3")
                (if args.kmlDescFound then args.userKmlDesc else "from h3ToGeo")
              :: ((fgetsChunks input).map
                    (fun b => doCell lib (stringToH3 (String.mk b)) true)
                  ++ [OutputItem.kmlFooter]) := by
          simp only [main, hidx, hk, Bool.false_eq_true, if_false, if_true,
            mainLoop_spec, kmlPtsHeader, kmlPtsFooter]
          simp
        exact ⟨_, hout⟩
      | true =>
        have hout : (main lib ParseOutcome.success args input true).out
            = OutputItem.kmlHeader
                (if args.kmlNameFound then args.userKmlName else "geo from H3")
                (if args.kmlDescFound then args.userKmlDesc else "from h3ToGeo")
              :: (fgetsChunks input).map
                  (fun b => doCell lib (stringToH3 (String.mk b)) true) := by
          simp only [main, hidx, hk, Bool.false_eq_true, if_false, if_true,
            mainLoop_spec, kmlPtsHeader]
          simp
        exact ⟨_, hout⟩
  · simp only [scanStr255, String.length_mk, List.length_take]
    omega
  · simp only [scanStr255, String.length_mk, List.length_take]
    omega

/-- Claim C1: for every valid hexadecimal cell index (a nonempty string
of at most 16 hex digits), single-value mode with that index produces
exactly the output of streaming mode given the same index as the sole
input line, and in single-value mode standard input is never read. -/
theorem single_mode_matches_streaming (lib : H3Lib) (args : Args)
    (input : List Char) (err : Bool) (hs : List Char) (hne : hs ≠ [])
    (hhex : ∀ c ∈ hs, (hexVal c).isSome = true) (hlen : hs.length ≤ 16) :
    (main lib ParseOutcome.success
        { args with indexFound := true, index := scanHexIndex (String.mk hs) }
        input err).out =
      (main lib ParseOutcome.success { args with indexFound := false }
        (hs ++ ['\n']) false).out ∧
    (main lib ParseOutcome.success
        { args with indexFound := true, index := scanHexIndex (String.mk hs) }
        input err).reads = 0 := by
  have hnl : '\n' ∉ hs := by
    intro hmem
    have := hhex '\n' hmem
    rw [hexVal_newline] at this
    simp at this
  have hfg : fgets (hs ++ ['\n']) = some (hs ++ ['\n'], []) := by
    have := fgets_line hs [] hnl (by simp only [BUFF_SIZE]; omega)
    simpa using this
  have hparse : stringToH3 (String.mk (hs ++ ['\n'])) = scanHexIndex (String.mk hs) := by
    simp only [stringToH3, scanHexIndex]
    exact hexAcc_append_newline hs 0
  constructor
  · simp only [main]
    rw [mainLoop_some lib args.kmlFound false (hs ++ ['\n']) (hs ++ ['\n']) [] hfg,
      mainLoop_nil]
    simp [hparse]
  · simp [main]

/-- Claim C10: a physical input line longer than the 255-character read
capacity is consumed in several successive reads, each chunk decoded and
emitted as its own item, so one over-long line yields more than one
output item. -/
theorem overlong_line_splits (lib : H3Lib) (args : Args) (err : Bool)
    (l : List Char) (hi : args.indexFound = false) (hk : args.kmlFound = false)
    (hnl : '\n' ∉ l) (hlong : 255 < l.length) :
    (main lib ParseOutcome.success args (l ++ ['\n']) err).out =
      (fgetsChunks (l ++ ['\n'])).map
        (fun b => doCell lib (stringToH3 (String.mk b)) false) ∧
    1 < (fgetsChunks (l ++ ['\n'])).length ∧
    (main lib ParseOutcome.success args (l ++ ['\n']) err).out.length
      = (fgetsChunks (l ++ ['\n'])).length := by
  have hsplit : 1 < (fgetsChunks (l ++ ['\n'])).length :=
    fgetsChunks_overlong l hnl (by simp only [BUFF_SIZE]; omega)
  have hout : (main lib ParseOutcome.success args (l ++ ['\n']) err).out =
      (fgetsChunks (l ++ ['\n'])).map
        (fun b => doCell lib (stringToH3 (String.mk b)) false) := by
    simp only [main, hi, hk, Bool.false_eq_true, if_false, mainLoop_spec]
    cases err <;> simp
  refine ⟨hout, hsplit, ?_⟩
  rw [hout]
  simp

/-- Concrete instance of claim C1 at the one-digit index `f`. -/
theorem single_mode_matches_streaming_witness :
    (['f'] ≠ ([] : List Char)) ∧ (∀ c ∈ ['f'], (hexVal c).isSome = true) ∧
    (['f'].length ≤ 16) ∧
    ((main testLib ParseOutcome.success
        { testArgs with indexFound := true, index := scanHexIndex (String.mk ['f']) }
        ['a', '\n'] true).out =
      (main testLib ParseOutcome.success { testArgs with indexFound := false }
        (['f'] ++ ['\n']) false).out ∧
     (main testLib ParseOutcome.success
        { testArgs with indexFound := true, index := scanHexIndex (String.mk ['f']) }
        ['a', '\n'] true).reads = 0) :=
  ⟨by decide, by decide, by decide,
    single_mode_matches_streaming testLib testArgs ['a', '\n'] true ['f']
      (by decide) (by decide) (by decide)⟩

/-- Concrete instance of claim C2 at a KML-mode argument state. -/
theorem kml_bracketing_witness :
    testArgsKml.kmlFound = true ∧
    ((∀ (input : List Char) (err : Bool), testArgsKml.indexFound = true →
      ∃ n d pm, (main testLib ParseOutcome.success testArgsKml input err).out
          = [OutputItem.kmlHeader n d, pm, OutputItem.kmlFooter] ∧
        isPlacemark pm = true) ∧
    (∀ ls : List (List Char), testArgsKml.indexFound = false → linesWF ls →
      ∃ n d mids,
        (main testLib ParseOutcome.success testArgsKml (joinLines ls) false).out
          = OutputItem.kmlHeader n d :: (mids ++ [OutputItem.kmlFooter]) ∧
        (∀ x ∈ mids, isPlacemark x = true) ∧ mids.length = ls.length) ∧
    (testArgsKml.indexFound = false →
      ∃ n d, (main testLib ParseOutcome.success testArgsKml [] false).out
        = [OutputItem.kmlHeader n d, OutputItem.kmlFooter])) :=
  ⟨rfl, kml_bracketing testLib testArgsKml rfl⟩

/-- Concrete instance of claim C3 on a one-line stream. -/
theorem plaintext_line_format_witness :
    testArgs.indexFound = false ∧ testArgs.kmlFound = false ∧
    ((main testLib ParseOutcome.success testArgs ['f', '\n'] false).out =
      (fgetsChunks ['f', '\n']).map
        (fun b => doCell testLib (stringToH3 (String.mk b)) false) ∧
    ∀ h : H3Index, ∃ la lo,
      doCell testLib h false = OutputItem.textLine (la ++ " " ++ lo ++ "\n") ∧
      la = printfFixed10 (testLib.radsToDegs (testLib.h3ToGeo h).lat) ∧
      lo = printfFixed10 (testLib.radsToDegs (testLib.h3ToGeo h).lon) ∧
      fixed10 la ∧ fixed10 lo) :=
  ⟨rfl, rfl, plaintext_line_format testLib testArgs ['f', '\n'] false rfl rfl⟩

/-- Concrete instance of claim C4 on a stream ending in a read error. -/
theorem stream_error_no_footer_witness :
    testArgsKml.indexFound = false ∧
    ((((main testLib ParseOutcome.success testArgsKml ['f', '\n'] true).diag
        = some ("reading H3 index from stdin") ∧
      (main testLib ParseOutcome.success testArgsKml ['f', '\n'] true).exitCode = 1)
        ↔ true = true) ∧
    (true = true → OutputItem.kmlFooter
      ∉ (main testLib ParseOutcome.success testArgsKml ['f', '\n'] true).out) ∧
    (true = true → testArgsKml.kmlFound = true → ∃ n d rest,
      (main testLib ParseOutcome.success testArgsKml ['f', '\n'] true).out
        = OutputItem.kmlHeader n d :: rest) ∧
    (true = false →
      (main testLib ParseOutcome.success testArgsKml ['f', '\n'] true).diag = none ∧
      (main testLib ParseOutcome.success testArgsKml ['f', '\n'] true).exitCode = 0)) :=
  ⟨rfl, stream_error_no_footer testLib testArgsKml ['f', '\n'] true rfl⟩

/-- Concrete instance of claim C5 on an error-free stream. -/
theorem exit_status_witness :
    false = false ∧
    ((main testLib ParseOutcome.help testArgs ['f', '\n'] false).exitCode = 0 ∧
    (main testLib ParseOutcome.help testArgs ['f', '\n'] false).out = [] ∧
    (main testLib ParseOutcome.help testArgs ['f', '\n'] false).reads = 0 ∧
    (main testLib ParseOutcome.err testArgs ['f', '\n'] false).exitCode = 1 ∧
    (main testLib ParseOutcome.err testArgs ['f', '\n'] false).out = [] ∧
    (main testLib ParseOutcome.err testArgs ['f', '\n'] false).reads = 0 ∧
    (main testLib ParseOutcome.success testArgs ['f', '\n'] false).exitCode = 0) :=
  ⟨rfl, exit_status testLib testArgs ['f', '\n'] false rfl⟩

/-- Concrete instance of claim C6 with both overrides supplied. -/
theorem kml_header_metadata_witness :
    testArgsKmlNamed.kmlFound = true ∧
    testArgsKmlNamed.userKmlName = scanStr255 ("Nm") ∧
    testArgsKmlNamed.userKmlDesc = scanStr255 ("Ds") ∧
    ((∃ rest, (main testLib ParseOutcome.success testArgsKmlNamed
        ['f', '\n'] false).out =
        OutputItem.kmlHeader
          (if testArgsKmlNamed.kmlNameFound then scanStr255 ("Nm") else "geo from H3")
          (if testArgsKmlNamed.kmlDescFound then scanStr255 ("Ds") else "from h3ToGeo")
        :: rest) ∧
    (scanStr255 ("Nm")).length ≤ 255 ∧ (scanStr255 ("Ds")).length ≤ 255) :=
  ⟨rfl, rfl, rfl,
    kml_header_metadata testLib testArgsKmlNamed ['f', '\n'] false ("Nm") ("Ds")
      rfl rfl rfl⟩

/-- Concrete instance of claim C7 on a one-line KML run. -/
theorem output_order_preserved_witness :
    testArgsKml.indexFound = false ∧ false = false ∧
    ((main testLib ParseOutcome.success testArgsKml ['f', '\n'] false).out =
      (if testArgsKml.kmlFound then
          [OutputItem.kmlHeader
            (if testArgsKml.kmlNameFound then testArgsKml.userKmlName else "geo from H3")
            (if testArgsKml.kmlDescFound then testArgsKml.userKmlDesc else "from h3ToGeo")]
        else []) ++
      (fgetsChunks ['f', '\n']).map
        (fun b => doCell testLib (stringToH3 (String.mk b)) testArgsKml.kmlFound) ++
      (if testArgsKml.kmlFound then [OutputItem.kmlFooter] else [])) :=
  ⟨rfl, rfl, output_order_preserved testLib testArgsKml ['f', '\n'] false rfl rfl⟩

/-- Concrete instance of claim C9: a dangling name override changes
nothing. -/
theorem kml_flags_noninterference_witness :
    testArgs.kmlFound = false ∧ testArgsAltName.kmlFound = false ∧
    testArgs.indexFound = testArgsAltName.indexFound ∧
    testArgs.index = testArgsAltName.index ∧
    main testLib ParseOutcome.success testArgs ['f', '\n'] false
      = main testLib ParseOutcome.success testArgsAltName ['f', '\n'] false :=
  ⟨rfl, rfl, rfl, rfl,
    kml_flags_noninterference testLib ParseOutcome.success testArgs
      testArgsAltName ['f', '\n'] false rfl rfl rfl rfl⟩

/-- Concrete instance of claim C10 on a 256-character line. -/
theorem overlong_line_splits_witness :
    testArgs.indexFound = false ∧ testArgs.kmlFound = false ∧
    ('\n' ∉ List.replicate 256 'a') ∧ (255 < (List.replicate 256 'a').length) ∧
    ((main testLib ParseOutcome.success testArgs (List.replicate 256 'a' ++ ['\n']) false).out =
      (fgetsChunks (List.replicate 256 'a' ++ ['\n'])).map
        (fun b => doCell testLib (stringToH3 (String.mk b)) false) ∧
    1 < (fgetsChunks (List.replicate 256 'a' ++ ['\n'])).length ∧
    (main testLib ParseOutcome.success testArgs
        (List.replicate 256 'a' ++ ['\n']) false).out.length
      = (fgetsChunks (List.replicate 256 'a' ++ ['\n'])).length) :=
  ⟨rfl, rfl, by simp only [List.mem_replicate]; decide,
    by simp only [List.length_replicate]; decide,
    overlong_line_splits testLib testArgs false (List.replicate 256 'a') rfl rfl
      (by simp only [List.mem_replicate]; decide)
      (by simp only [List.length_replicate]; decide)⟩

end H3ToGeo
